import Mathlib

/-!
Shallow embedding of `media/libmediatranscoding/transcoder/MediaTranscoder.cpp`
(the transcoding session coordinator) and proofs of the specification claims.

Conventions of the embedding:
* `media_status_t` becomes the inductive `MediaStatus`.
* `AMediaFormat` becomes `Format`, an association list from key strings to
  typed values (`FormatValue`); lookup returns the first matching entry,
  `Format.set` replaces the entry, matching the NDK map semantics.
* The coordinator state (`MediaTranscoder`'s fields) becomes the structure
  `Session`.  Collaborator objects (sample reader, sample writer, track
  transcoders) are modelled by the portion of their state this file's code
  observes or mutates, plus ghost event logs (calls to `stop`, `start`,
  `selectTrack`, delivered client callbacks) used to state the claims.
* Collaborator results that the coordinator merely branches on (whether
  `addTrack` returns a consumer, whether `start` succeeds, the status of
  `selectTrack` and `Transcoder::configure`) are inputs chosen by an
  environment record.
* Dereferencing a null `shared_ptr` (`mSampleWriter->stop()` when the writer
  was never configured) is undefined behaviour; fallible functions therefore
  return `Option`, with `none` marking the null dereference.
-/

namespace MediaTranscoding

/-- media_status_t values used by MediaTranscoder.cpp.  `errorOther` stands for
any other concrete error code a collaborator may return. -/
inductive MediaStatus where
  | ok
  | errorUnknown
  | errorMalformed
  | errorUnsupported
  | errorInvalidParameter
  | errorInvalidOperation
  | errorOther (code : Int)
deriving DecidableEq, Repr

/-- A typed value stored in an `AMediaFormat`.  Floats carry an opaque payload:
the coordinator never computes with them, only copies them. -/
inductive FormatValue where
  | vString (s : String)
  | vInt32 (n : Int)
  | vInt64 (n : Int)
  | vFloat (bits : Nat)
deriving DecidableEq, Repr

/-- `AMediaFormat`: a keyed record of typed values.  Lookup is first-match. -/
def Format : Type := List (String × FormatValue)

instance : DecidableEq Format := by
  unfold Format; infer_instance

instance : Repr Format := by
  unfold Format; infer_instance

/-- `AMediaFormat_get*`: the stored entry for a key, if any. -/
def Format.get (f : Format) (k : String) : Option FormatValue :=
  (List.find? (fun e => e.1 == k) f).map (fun e => e.2)

/-- `AMediaFormat_set*`: store a value for a key, replacing any previous
entry for that key. -/
def Format.set (f : Format) (k : String) (v : FormatValue) : Format :=
  (k, v) :: List.filter (fun e => !(e.1 == k)) f

/-- The value kinds appearing in `kSupportedFormatEntries`:
`ENTRY_COPIER(_, String)`, `ENTRY_COPIER(_, Int64)`, `ENTRY_COPIER(_, Int32)`
and `ENTRY_COPIER2(_, Float, Int32)`. -/
inductive EntryType where
  | tString
  | tInt64
  | tInt32
  | tFloatOrInt32
deriving DecidableEq, Repr

/-- Whether a stored value has the type an entry copier accepts.
`ENTRY_COPIER2(key, Float, Int32)` first tries the typed float getter and then
the typed int32 getter, so it accepts either representation. -/
def valueMatches : EntryType → FormatValue → Bool
  | .tString, .vString _ => true
  | .tInt64, .vInt64 _ => true
  | .tInt32, .vInt32 _ => true
  | .tFloatOrInt32, .vFloat _ => true
  | .tFloatOrInt32, .vInt32 _ => true
  | _, _ => false

/-- A typed getter (`AMediaFormat_getString` / `getInt32` / ...): succeeds only
when the key is present with the matching stored type. -/
def typedGet (ty : EntryType) (f : Format) (k : String) : Option FormatValue :=
  match f.get k with
  | some v => if valueMatches ty v then some v else none
  | none => none

/-- The static allow-list `kSupportedFormatEntries` of MediaTranscoder.cpp,
with the NDK key strings. -/
def kSupportedFormatEntries : List (String × EntryType) :=
  [("mime", .tString),
   ("durationUs", .tInt64),
   ("width", .tInt32),
   ("height", .tInt32),
   ("bitrate", .tInt32),
   ("profile", .tInt32),
   ("level", .tInt32),
   ("color-format", .tInt32),
   ("color-range", .tInt32),
   ("color-standard", .tInt32),
   ("color-transfer", .tInt32),
   ("frame-rate", .tInt32),
   ("i-frame-interval", .tInt32),
   ("priority", .tInt32),
   ("operating-rate", .tFloatOrInt32)]

/-- `AMediaFormatUtils::CopyFormatEntries(src, dst, entries)`: for each entry
copier in order, copy the source's value for that key into the destination
when the source holds it with the expected type. -/
def copyFormatEntries (src : Format) (dst : Format)
    (entries : List (String × EntryType)) : Format :=
  entries.foldl
    (fun acc e =>
      match typedGet e.2 src e.1 with
      | some v => acc.set e.1 v
      | none => acc)
    dst

/-- `mergeMediaFormats(base, overlay)`: null inputs fail; otherwise copy the
base and overwrite it with the overlay's allow-listed entries.  `none` stands
for a null `AMediaFormat*`. -/
def mergeMediaFormats (base overlay : Option Format) : Option Format :=
  match base, overlay with
  | some b, some o => some (copyFormatEntries o b kSupportedFormatEntries)
  | _, _ => none

/-- The entry type the allow-list associates to a key, if the key is
allow-listed. -/
def allowListType (k : String) : Option EntryType :=
  (List.find? (fun e => e.1 == k) kSupportedFormatEntries).map (fun e => e.2)

/-- An overlay is well typed when every allow-listed key it defines carries the
type the allow-list expects (the spec's format-descriptor data model: each key
of the fixed universe has a fixed value type). -/
def overlayWellTyped (o : Format) : Bool :=
  kSupportedFormatEntries.all
    (fun e =>
      match o.get e.1 with
      | some v => valueMatches e.2 v
      | none => true)

/-- Identity of a `MediaTrackTranscoder` object (its pointer value): distinct
transcoder objects have distinct ids. -/
abbrev TranscoderId := Nat

/-- Which concrete class a configured track transcoder is. -/
inductive TrackKind where
  | passthrough
  | video
deriving DecidableEq, Repr

/-- One configured track transcoder: identity, class, bound source track index,
and (for the video variant) the merged destination format. -/
structure TrackTranscoder where
  tid : TranscoderId
  kind : TrackKind
  trackIndex : Nat
  outFormat : Option Format
deriving DecidableEq, Repr

/-- The part of `MediaSampleReaderNDK` state this coordinator reads or writes:
the log of `selectTrack` calls and the sequential-access flag. -/
structure SampleReader where
  selectedTracks : List Nat
  enforceSequentialAccess : Bool
deriving DecidableEq, Repr

/-- The part of `MediaSampleWriter` state this coordinator reads or writes:
which transcoders' output tracks were registered via `addTrack`, how many
times `start` was invoked, whether the last `start` succeeded, and how many
times `stop` was invoked. -/
structure SampleWriter where
  trackIds : List TranscoderId
  startCalls : Nat
  started : Bool
  stopCalls : Nat
deriving DecidableEq, Repr

/-- A callback delivered to the client sink (`CallbackInterface`). -/
inductive ClientCallback where
  | onFinished
  | onError (status : MediaStatus)
deriving DecidableEq, Repr

/-- The callback `sendCallback(status)` delivers for a status. -/
def callbackOf (status : MediaStatus) : ClientCallback :=
  if status = .ok then .onFinished else .onError status

/-- The `MediaTranscoder` object's state.  `delivered`, `transcoderStartCalls`
and `transcoderStopCalls` are ghost logs of the calls made on the client sink
and the track transcoders. -/
structure Session where
  mCancelled : Bool
  mCallbackSent : Bool
  mSampleReader : Option SampleReader
  mSampleWriter : Option SampleWriter
  mSourceTrackFormats : List Format
  mTrackTranscoders : List TrackTranscoder
  mTracksAdded : List TranscoderId
  delivered : List ClientCallback
  transcoderStartCalls : List TranscoderId
  transcoderStopCalls : List TranscoderId
deriving DecidableEq, Repr

/-- A freshly created `MediaTranscoder` (constructor at line 157). -/
def initSession : Session :=
  { mCancelled := false
    mCallbackSent := false
    mSampleReader := none
    mSampleWriter := none
    mSourceTrackFormats := []
    mTrackTranscoders := []
    mTracksAdded := []
    delivered := []
    transcoderStartCalls := []
    transcoderStopCalls := [] }

/-- `MediaTranscoder::sendCallback(status)` (lines 72-98).  If the session was
cancelled and the status is an error, return without delivering anything;
otherwise the one-shot `mCallbackSent` compare-exchange admits only the first
caller, which delivers `onFinished` for `AMEDIA_OK` and `onError` otherwise.
(The asynchronous detached `cancel()` it then spawns is modelled as a separate
trace event, see `TermEvent.cancelCall`.) -/
def sendCallback (s : Session) (status : MediaStatus) : Session :=
  if s.mCancelled ∧ status ≠ .ok then s
  else if s.mCallbackSent then s
  else
    { s with
      mCallbackSent := true
      delivered := s.delivered ++ [callbackOf status] }

/-- `MediaTranscoder::cancel()` (lines 339-353).  The compare-exchange on
`mCancelled` lets only the first caller proceed; that caller stops the writer,
disables sequential access on the reader and stops every track transcoder.
`none` models the null dereference of `mSampleWriter` / `mSampleReader` when
cancel's stop sequence runs on an unconfigured session. -/
def cancel (s : Session) : Option (Session × MediaStatus) :=
  if s.mCancelled then some (s, .ok)
  else
    match s.mSampleWriter, s.mSampleReader with
    | some w, some r =>
        some
          ({ s with
             mCancelled := true
             mSampleWriter := some { w with stopCalls := w.stopCalls + 1 }
             mSampleReader := some { r with enforceSequentialAccess := false }
             transcoderStopCalls :=
               s.transcoderStopCalls ++ s.mTrackTranscoders.map TrackTranscoder.tid },
           .ok)
    | _, _ => none

/-- `MediaTranscoder::pause()` (lines 328-332): writes an empty parcel (not
modelled) and delegates to `cancel()`. -/
def pause (s : Session) : Option (Session × MediaStatus) :=
  cancel s

/-- Environment of a `configureSource` call: what
`MediaSampleReaderNDK::createFromFd` and the reader's `getTrackFormat` return.
`parsed = none` means the container could not be parsed; otherwise the list
gives each track's format (`none` = track has no format). -/
structure SourceEnv where
  parsed : Option (List (Option Format))
deriving DecidableEq, Repr

/-- The capture loop of `configureSource` (lines 191-200): walk the tracks in
order, appending each format to `mSourceTrackFormats`; a track with no format
aborts with `AMEDIA_ERROR_MALFORMED`, keeping the formats already captured. -/
def captureFormats (s : Session) : List (Option Format) → Session × MediaStatus
  | [] => (s, .ok)
  | none :: _ => (s, .errorMalformed)
  | some f :: rest =>
      captureFormats { s with mSourceTrackFormats := s.mSourceTrackFormats ++ [f] } rest

/-- `MediaTranscoder::configureSource(fd)` (lines 175-203).  A negative fd is
an invalid parameter; a parse failure stores the null reader and returns
unsupported; otherwise a fresh reader is stored and every track's format is
captured in order. -/
def configureSource (s : Session) (fd : Int) (env : SourceEnv) :
    Session × MediaStatus :=
  if fd < 0 then (s, .errorInvalidParameter)
  else
    match env.parsed with
    | none => ({ s with mSampleReader := none }, .errorUnsupported)
    | some trackFmts =>
        captureFormats
          { s with
            mSampleReader := some { selectedTracks := [], enforceSequentialAccess := false } }
          trackFmts

/-- `strncmp(mime, "video/", 6) == 0`: the first six characters of the mime
string are `video/`. -/
def hasVideoPrefix (m : String) : Bool :=
  m.toList.take 6 == "video/".toList

/-- Environment of a `configureTrackFormat` call: the reader's `selectTrack`
status, the track transcoder's `configure` status, and the identity of the
newly created transcoder object. -/
structure TrackEnv where
  selectTrackStatus : MediaStatus
  configureStatus : MediaStatus
  newId : TranscoderId
deriving DecidableEq, Repr

/-- Append a successfully configured transcoder (`mTrackTranscoders.emplace_back`). -/
def appendTranscoder (s : Session) (t : TrackTranscoder) : Session :=
  { s with mTrackTranscoders := s.mTrackTranscoders ++ [t] }

/-- `MediaTranscoder::configureTrackFormat(trackIndex, trackFormat)` (lines
216-282).  Requires a configured source and an in-range index; selects the
track on the reader (recorded in `selectedTracks` when the selection
succeeds); a null override binds a passthrough transcoder; a non-null
override requires a video source mime and (when the override carries a mime
string) a video destination mime, and binds a video transcoder over the
merged format.  The transcoder is appended only when its `configure`
succeeds. -/
def configureTrackFormat (s : Session) (trackIndex : Nat)
    (trackFormat : Option Format) (env : TrackEnv) : Session × MediaStatus :=
  match s.mSampleReader with
  | none => (s, .errorInvalidOperation)
  | some reader =>
      if s.mSourceTrackFormats.length ≤ trackIndex then
        (s, .errorInvalidParameter)
      else
        if env.selectTrackStatus ≠ .ok then (s, env.selectTrackStatus)
        else
          let s1 : Session :=
            { s with
              mSampleReader :=
                some { reader with selectedTracks := reader.selectedTracks ++ [trackIndex] } }
          match trackFormat with
          | none =>
              if env.configureStatus ≠ .ok then (s1, env.configureStatus)
              else
                (appendTranscoder s1
                   { tid := env.newId, kind := .passthrough,
                     trackIndex := trackIndex, outFormat := none },
                 .ok)
          | some overrideFmt =>
              let srcFmt := s.mSourceTrackFormats.getD trackIndex []
              match srcFmt.get "mime" with
              | some (.vString srcMime) =>
                  if ¬ hasVideoPrefix srcMime then (s1, .errorUnsupported)
                  else
                    let dstMimeOk :=
                      match overrideFmt.get "mime" with
                      | some (.vString dstMime) => hasVideoPrefix dstMime
                      | _ => true
                    if dstMimeOk = false then (s1, .errorUnsupported)
                    else
                      match mergeMediaFormats (some srcFmt) (some overrideFmt) with
                      | none => (s1, .errorUnknown)
                      | some merged =>
                          if env.configureStatus ≠ .ok then (s1, env.configureStatus)
                          else
                            (appendTranscoder s1
                               { tid := env.newId, kind := .video,
                                 trackIndex := trackIndex, outFormat := some merged },
                             .ok)
              | _ => (s1, .errorMalformed)

/-- Environment of a `configureDestination` call: whether the writer's `init`
succeeds. -/
structure DestEnv where
  initOk : Bool
deriving DecidableEq, Repr

/-- `MediaTranscoder::configureDestination(fd)` (lines 284-305).  Negative fd
is an invalid parameter; a second configuration is an invalid operation; on
writer-init failure the partially initialized writer is discarded
(`mSampleWriter.reset()`), leaving the prior (null) writer. -/
def configureDestination (s : Session) (fd : Int) (env : DestEnv) :
    Session × MediaStatus :=
  if fd < 0 then (s, .errorInvalidParameter)
  else if s.mSampleWriter.isSome then (s, .errorInvalidOperation)
  else if env.initOk then
    ({ s with
       mSampleWriter := some { trackIds := [], startCalls := 0, started := false, stopCalls := 0 } },
     .ok)
  else (s, .errorUnknown)

/-- The loop of `MediaTranscoder::start()` (lines 317-324): start each track
transcoder in list order; on the first failure invoke `cancel()` and return
`AMEDIA_ERROR_UNKNOWN`.  `startOk t` is the environment's verdict on
`transcoder->start()`. -/
def startLoop (startOk : TranscoderId → Bool) :
    Session → List TrackTranscoder → Option (Session × MediaStatus)
  | s, [] => some (s, .ok)
  | s, t :: rest =>
      let s1 : Session := { s with transcoderStartCalls := s.transcoderStartCalls ++ [t.tid] }
      if startOk t.tid then startLoop startOk s1 rest
      else
        match cancel s1 with
        | some (s2, _) => some (s2, .errorUnknown)
        | none => none

/-- `MediaTranscoder::start()` (lines 307-326): invalid operation when no
track is configured or the destination is not configured; otherwise run the
start loop. -/
def start (s : Session) (startOk : TranscoderId → Bool) :
    Option (Session × MediaStatus) :=
  if s.mTrackTranscoders.length < 1 then some (s, .errorInvalidOperation)
  else if s.mSampleWriter.isNone then some (s, .errorInvalidOperation)
  else startLoop startOk s s.mTrackTranscoders

/-- `MediaTranscoder::resume()` (lines 334-337): delegates to `start()`. -/
def resume (s : Session) (startOk : TranscoderId → Bool) :
    Option (Session × MediaStatus) :=
  start s startOk

/-- One `onTrackFormatAvailable` delivery: which transcoder reported, whether
the writer's `addTrack` returned a consumer, and whether the writer's `start`
succeeds (consulted only when this event completes the quorum). -/
structure FmtEvent where
  tid : TranscoderId
  addTrackOk : Bool
  writerStartOk : Bool
deriving DecidableEq, Repr

/-- `MediaTranscoder::onTrackFormatAvailable(transcoder)` (lines 100-136).
Duplicate reports are ignored; a failed `addTrack` raises a terminal unknown
error; otherwise the transcoder joins `mTracksAdded`, and when every
configured transcoder has reported, sequential access is enabled on the
reader and the writer is started (a failed writer start raises a terminal
unknown error).  `none` models the null dereference of the writer or reader
handle. -/
def onTrackFormatAvailable (s : Session) (e : FmtEvent) : Option Session :=
  if e.tid ∈ s.mTracksAdded then some s
  else
    match s.mSampleWriter with
    | none => none
    | some w =>
        if ¬ e.addTrackOk then some (sendCallback s .errorUnknown)
        else
          let s1 : Session :=
            { s with
              mSampleWriter := some { w with trackIds := w.trackIds ++ [e.tid] }
              mTracksAdded := s.mTracksAdded ++ [e.tid] }
          if s1.mTracksAdded.length = s1.mTrackTranscoders.length then
            match s1.mSampleReader, s1.mSampleWriter with
            | some r, some w1 =>
                let s2 : Session :=
                  { s1 with
                    mSampleReader := some { r with enforceSequentialAccess := true }
                    mSampleWriter :=
                      some { w1 with
                             startCalls := w1.startCalls + 1, started := e.writerStartOk } }
                if ¬ e.writerStartOk then some (sendCallback s2 .errorUnknown)
                else some s2
            | _, _ => none
          else some s1

/-- Run a sequence of `onTrackFormatAvailable` deliveries. -/
def runFmtEvents : Session → List FmtEvent → Option Session
  | s, [] => some s
  | s, e :: es =>
      match onTrackFormatAvailable s e with
      | some s1 => runFmtEvents s1 es
      | none => none

/-- `MediaTranscoder::onTrackError(transcoder, status)` (lines 142-145):
raises a terminal callback with the given status. -/
def onTrackError (s : Session) (status : MediaStatus) : Session :=
  sendCallback s status

/-- `MediaTranscoder::onFinished(writer, status)` (lines 147-150): raises a
terminal callback with the writer's status. -/
def onWriterFinished (s : Session) (status : MediaStatus) : Session :=
  sendCallback s status

/-- `MediaTranscoder::onTrackFinished(transcoder)` (lines 138-140):
informational only, no state change. -/
def onTrackFinished (s : Session) : Session :=
  s

/-- A terminal-phase event: a track error, the writer finishing (status
`AMEDIA_OK` or an error), a track finishing, or a `cancel()` call — the
latter covering both an explicit client cancel and the detached asynchronous
teardown cancel spawned by `sendCallback`. -/
inductive TermEvent where
  | trackError (status : MediaStatus)
  | writerFinished (status : MediaStatus)
  | trackFinished
  | cancelCall
deriving DecidableEq, Repr

/-- The status a terminal event hands to `sendCallback`, when it is one of the
two terminal notifications. -/
def termStatus? : TermEvent → Option MediaStatus
  | .trackError st => some st
  | .writerFinished st => some st
  | .trackFinished => none
  | .cancelCall => none

/-- Process one terminal-phase event. -/
def stepEvent (s : Session) : TermEvent → Option Session
  | .trackError st => some (onTrackError s st)
  | .writerFinished st => some (onWriterFinished s st)
  | .trackFinished => some (onTrackFinished s)
  | .cancelCall => (cancel s).map (fun p => p.1)

/-- Process a sequence of terminal-phase events (one interleaving of the
track and writer notifications and cancel calls). -/
def runEvents : Session → List TermEvent → Option Session
  | s, [] => some s
  | s, e :: es =>
      match stepEvent s e with
      | some s1 => runEvents s1 es
      | none => none

/-- Whether a trace has no `cancel()` call before its first terminal
notification.  Traces of a session the client never cancels have this shape:
the only `cancel()` calls are the asynchronous teardown cancels spawned by
`sendCallback` after a terminal notification has been processed. -/
def noCancelBeforeTerm : List TermEvent → Bool
  | [] => true
  | .cancelCall :: _ => false
  | .trackFinished :: es => noCancelBeforeTerm es
  | .trackError _ :: _ => true
  | .writerFinished _ :: _ => true

/-- The status carried by the first terminal notification of a trace. -/
def firstTermStatus : List TermEvent → Option MediaStatus
  | [] => none
  | e :: es =>
      match termStatus? e with
      | some st => some st
      | none => firstTermStatus es

/-- Iterate `cancel()` `n` times, collecting each call's return status. -/
def cancelN : Session → Nat → Option (Session × List MediaStatus)
  | s, 0 => some (s, [])
  | s, n + 1 =>
      match cancel s with
      | none => none
      | some (s1, st) =>
          match cancelN s1 n with
          | none => none
          | some (s2, sts) => some (s2, st :: sts)

/-- A heap of `AMediaFormat` objects: cell `i` is the contents of the object
whose reference is `i`; `AMediaFormat_new` appends a cell.  Used to state the
aliasing claim about `getTrackFormats`. -/
structure FormatHeap where
  cells : List Format
deriving DecidableEq, Repr

/-- Read the format object a reference denotes. -/
def FormatHeap.read (h : FormatHeap) (r : Nat) : Format :=
  h.cells.getD r []

/-- Mutate the format object a reference denotes (an `AMediaFormat_set*` by
the caller on a returned descriptor). -/
def FormatHeap.write (h : FormatHeap) (r : Nat) (f : Format) : FormatHeap :=
  ⟨h.cells.set r f⟩

/-- `MediaTranscoder::getTrackFormats()` (lines 205-214) in the heap model:
for each stored source-format reference, allocate a fresh format object
(`AMediaFormat_new`), copy the source contents into it (`AMediaFormat_copy`)
and return the fresh references. -/
def getTrackFormats : FormatHeap → List Nat → FormatHeap × List Nat
  | h, [] => (h, [])
  | h, r :: rs =>
      let copyRef := h.cells.length
      let h1 : FormatHeap := ⟨h.cells ++ [h.read r]⟩
      let p := getTrackFormats h1 rs
      (p.1, copyRef :: p.2)

/-! ### Lemmas about the format map -/

theorem find?_filter_ne (f : List (String × FormatValue)) (k kp : String) (h : kp ≠ k) :
    List.find? (fun e => e.1 == kp) (List.filter (fun e => !(e.1 == k)) f) =
      List.find? (fun e => e.1 == kp) f := by
  induction f with
  | nil => rfl
  | cons e f ih =>
      by_cases hek : e.1 = k
      · have h1 : (e.1 == k) = true := by simp [hek]
        have h2 : (e.1 == kp) = false := by
          simp only [beq_eq_false_iff_ne, hek]
          exact Ne.symm h
        simp [List.filter, List.find?, h1, h2, ih]
      · have h1 : (e.1 == k) = false := by simp [hek]
        by_cases hep : e.1 = kp
        · have h2 : (e.1 == kp) = true := by simp [hep]
          simp [List.filter, List.find?, h1, h2]
        · have h2 : (e.1 == kp) = false := by simp [hep]
          simp [List.filter, List.find?, h1, h2, ih]

theorem get_set (f : Format) (k kp : String) (v : FormatValue) :
    (f.set k v).get kp = if kp = k then some v else f.get kp := by
  unfold Format.set Format.get
  by_cases hk : kp = k
  · subst hk
    simp [List.find?]
  · have h1 : (k == kp) = false := by
      simp only [beq_eq_false_iff_ne]
      exact Ne.symm hk
    simp [List.find?, h1, hk, find?_filter_ne f k kp hk]

theorem copyFormatEntries_cons (src dst : Format) (e : String × EntryType)
    (es : List (String × EntryType)) :
    copyFormatEntries src dst (e :: es) =
      copyFormatEntries src
        (match typedGet e.2 src e.1 with
         | some v => dst.set e.1 v
         | none => dst) es := by
  unfold copyFormatEntries
  simp [List.foldl]

theorem get_copyFormatEntries_not_mem (src : Format) (k : String) :
    ∀ (es : List (String × EntryType)) (dst : Format), (∀ e ∈ es, e.1 ≠ k) →
      (copyFormatEntries src dst es).get k = dst.get k := by
  intro es
  induction es with
  | nil => intro dst _; rfl
  | cons e es ih =>
      intro dst hne
      rw [copyFormatEntries_cons]
      have hek : e.1 ≠ k := hne e (by simp)
      have hrest : ∀ ep ∈ es, ep.1 ≠ k := fun ep hp => hne ep (by simp [hp])
      rw [ih _ hrest]
      cases hty : typedGet e.2 src e.1 with
      | none => rfl
      | some v =>
          rw [get_set, if_neg (fun hc => hek hc.symm)]

theorem get_copyFormatEntries_found (src : Format) (k : String) :
    ∀ (es : List (String × EntryType)) (e : String × EntryType),
      (es.map Prod.fst).Nodup →
      List.find? (fun x => x.1 == k) es = some e →
      ∀ dst : Format,
      (copyFormatEntries src dst es).get k =
        match typedGet e.2 src e.1 with
        | some v => some v
        | none => dst.get k := by
  intro es
  induction es with
  | nil =>
      intro e _ hf
      simp [List.find?] at hf
  | cons e0 es ih =>
      intro e hnd hf dst
      have hnd1 : (es.map Prod.fst).Nodup := (List.nodup_cons.mp hnd).2
      have hnm : e0.1 ∉ es.map Prod.fst := (List.nodup_cons.mp hnd).1
      rw [copyFormatEntries_cons]
      by_cases h0 : e0.1 = k
      · have hb : (e0.1 == k) = true := by simp [h0]
        simp only [List.find?, hb] at hf
        injection hf with he
        subst he
        have hrest : ∀ ep ∈ es, ep.1 ≠ k := by
          intro ep hp hc
          have hmem : ep.1 ∈ es.map Prod.fst := List.mem_map_of_mem Prod.fst hp
          rw [hc, ← h0] at hmem
          exact hnm hmem
        rw [get_copyFormatEntries_not_mem src k es _ hrest]
        cases hty : typedGet e0.2 src e0.1 with
        | none => rfl
        | some v =>
            rw [get_set, if_pos h0.symm]
      · have hb : (e0.1 == k) = false := by simp [h0]
        simp only [List.find?, hb] at hf
        rw [ih e hnd1 hf]
        cases hty : typedGet e.2 src e.1 with
        | some v => rfl
        | none =>
            cases hty0 : typedGet e0.2 src e0.1 with
            | none => rfl
            | some v0 =>
                rw [get_set, if_neg (fun hc => h0 hc.symm)]

theorem typedGet_of_wellTyped (o : Format) (ho : overlayWellTyped o = true)
    (e : String × EntryType) (he : e ∈ kSupportedFormatEntries) :
    typedGet e.2 o e.1 = o.get e.1 := by
  unfold overlayWellTyped at ho
  have h := List.all_eq_true.mp ho e he
  unfold typedGet
  cases hg : o.get e.1 with
  | none => rfl
  | some v =>
      rw [hg] at h
      simp only at h
      simp [h]

/-- Claim C5: `mergeMediaFormats(base, overlay)` fails when either input is
absent; otherwise it returns a descriptor that agrees with the base on every
key except the allow-listed keys the overlay defines, which take the
overlay's value; keys outside the allow-list are never taken from the
overlay.  (Determinism and the absence of mutation of the inputs are
intrinsic to the pure functional embedding.) -/
theorem c5_merge_formats :
    (∀ o, mergeMediaFormats none o = none) ∧
    (∀ b, mergeMediaFormats b none = none) ∧
    (∀ b o, overlayWellTyped o = true →
      ∃ m, mergeMediaFormats (some b) (some o) = some m ∧
        ∀ k, m.get k =
          if (allowListType k).isSome ∧ (o.get k).isSome then o.get k
          else b.get k) := by
  refine ⟨fun o => rfl, fun b => ?_, fun b o ho => ?_⟩
  · cases b <;> rfl
  · refine ⟨copyFormatEntries o b kSupportedFormatEntries, rfl, fun k => ?_⟩
    cases hf : List.find? (fun x => x.1 == k) kSupportedFormatEntries with
    | none =>
        have hrest : ∀ e ∈ kSupportedFormatEntries, e.1 ≠ k := by
          intro e hme hc
          have hne := List.find?_eq_none.mp hf e hme
          simp [hc] at hne
        rw [get_copyFormatEntries_not_mem o k _ _ hrest]
        have hnone : allowListType k = none := by
          unfold allowListType
          rw [hf]
          rfl
        rw [hnone]
        simp
    | some e =>
        have hmem := List.mem_of_find?_eq_some hf
        have hpk := List.find?_some hf
        have hek : e.1 = k := by simpa using hpk
        have hnd : (kSupportedFormatEntries.map Prod.fst).Nodup := by decide
        rw [get_copyFormatEntries_found o k kSupportedFormatEntries e hnd hf b]
        rw [typedGet_of_wellTyped o ho e hmem, hek]
        have hsome : (allowListType k).isSome = true := by
          unfold allowListType
          rw [hf]
          rfl
        cases hg : o.get k with
        | some v => simp [hsome, hg]
        | none => simp [hg]

/-- Witness for C5 at a concrete base and overlay. -/
theorem c5_merge_formats_witness :
    overlayWellTyped [("width", FormatValue.vInt32 1280)] = true ∧
    ∃ m,
      mergeMediaFormats
          (some [("mime", FormatValue.vString "video/avc"),
                 ("width", FormatValue.vInt32 640)])
          (some [("width", FormatValue.vInt32 1280)]) = some m ∧
      ∀ k, m.get k =
        if (allowListType k).isSome ∧
            (Format.get [("width", FormatValue.vInt32 1280)] k).isSome then
          Format.get [("width", FormatValue.vInt32 1280)] k
        else
          Format.get
            [("mime", FormatValue.vString "video/avc"),
             ("width", FormatValue.vInt32 640)] k :=
  ⟨by decide,
   c5_merge_formats.2.2
     [("mime", FormatValue.vString "video/avc"), ("width", FormatValue.vInt32 640)]
     [("width", FormatValue.vInt32 1280)] (by decide)⟩

/-- Claim C2: on a session the client has explicitly cancelled (cancelled
flag set, no terminal callback sent yet), a terminal event with an error
status delivers nothing, while a terminal event with the success status still
delivers the finished callback. -/
theorem c2_cancel_suppresses_errors (s : Session)
    (hc : s.mCancelled = true) (hs : s.mCallbackSent = false) :
    (∀ st, st ≠ MediaStatus.ok → sendCallback s st = s) ∧
    sendCallback s .ok =
      { s with mCallbackSent := true, delivered := s.delivered ++ [.onFinished] } := by
  constructor
  · intro st hne
    unfold sendCallback
    rw [if_pos ⟨by simp [hc], hne⟩]
  · unfold sendCallback
    rw [if_neg (fun hcon => hcon.2 rfl), if_neg (by simp [hs])]
    rfl

/-- Witness for C2 on a concrete cancelled session. -/
theorem c2_cancel_suppresses_errors_witness :
    ({ initSession with mCancelled := true } : Session).mCancelled = true ∧
    ({ initSession with mCancelled := true } : Session).mCallbackSent = false ∧
    sendCallback { initSession with mCancelled := true } .errorUnknown =
      { initSession with mCancelled := true } ∧
    sendCallback { initSession with mCancelled := true } .ok =
      { initSession with
        mCancelled := true
        mCallbackSent := true
        delivered := [.onFinished] } := by
  have h := c2_cancel_suppresses_errors { initSession with mCancelled := true } rfl rfl
  exact ⟨rfl, rfl, h.1 .errorUnknown (by decide), h.2⟩

/-- Claim C10: before the first (flag-winning) call, `cancel()` — and
`pause()`, which delegates to it — dereferences the sample writer and the
sample reader unconditionally, so on a session missing either handle the
first cancel hits a null dereference; with both handles configured it is
safe. -/
theorem c10_cancel_null_deref (s : Session) (hc : s.mCancelled = false) :
    (s.mSampleWriter = none ∨ s.mSampleReader = none →
      cancel s = none ∧ pause s = none) ∧
    (s.mSampleWriter.isSome → s.mSampleReader.isSome → (cancel s).isSome) := by
  constructor
  · intro hnull
    have hcrash : cancel s = none := by
      unfold cancel
      rw [if_neg (by simp [hc])]
      rcases hnull with hn | hn
      · rw [hn]
      · rw [hn]
        cases s.mSampleWriter <;> rfl
    exact ⟨hcrash, hcrash⟩
  · intro hw hr
    unfold cancel
    rw [if_neg (by simp [hc])]
    obtain ⟨w, hweq⟩ := Option.isSome_iff_exists.mp hw
    obtain ⟨r, hreq⟩ := Option.isSome_iff_exists.mp hr
    rw [hweq, hreq]
    rfl

/-- Witness for C10: a freshly created session (no source, no destination)
crashes on its first `cancel()` and `pause()`. -/
theorem c10_cancel_null_deref_witness :
    initSession.mCancelled = false ∧
    cancel initSession = none ∧ pause initSession = none :=
  ⟨rfl, (c10_cancel_null_deref initSession rfl).1 (Or.inl rfl)⟩

theorem cancel_of_cancelled (s : Session) (h : s.mCancelled = true) :
    cancel s = some (s, .ok) := by
  unfold cancel
  rw [if_pos (by simp [h])]

theorem cancel_not_cancelled (s : Session) (w : SampleWriter) (r : SampleReader)
    (hc : s.mCancelled = false) (hw : s.mSampleWriter = some w)
    (hr : s.mSampleReader = some r) :
    cancel s =
      some ({ s with
              mCancelled := true
              mSampleWriter := some { w with stopCalls := w.stopCalls + 1 }
              mSampleReader := some { r with enforceSequentialAccess := false }
              transcoderStopCalls :=
                s.transcoderStopCalls ++ s.mTrackTranscoders.map TrackTranscoder.tid },
            .ok) := by
  unfold cancel
  rw [if_neg (by simp [hc]), hw, hr]

theorem cancelN_of_cancelled (m : Nat) :
    ∀ s : Session, s.mCancelled = true →
      cancelN s m = some (s, List.replicate m .ok) := by
  induction m with
  | zero => intro s _; rfl
  | succ k ih =>
      intro s h
      simp only [cancelN, cancel_of_cancelled s h]
      rw [ih s h]
      simp [List.replicate_succ]

/-- Claim C4: on a configured session, any positive number of `cancel()`
calls performs the stop sequence (stop the writer, clear the reader's
sequential-access mode, stop every track transcoder) exactly once, and every
call returns success. -/
theorem c4_cancel_exactly_once (s : Session) (w : SampleWriter) (r : SampleReader)
    (n : Nat) (hc : s.mCancelled = false) (hw : s.mSampleWriter = some w)
    (hr : s.mSampleReader = some r) (hn : 1 ≤ n) :
    ∃ s1, cancelN s n = some (s1, List.replicate n .ok) ∧
      s1.mCancelled = true ∧
      s1.mSampleWriter = some { w with stopCalls := w.stopCalls + 1 } ∧
      s1.mSampleReader = some { r with enforceSequentialAccess := false } ∧
      s1.transcoderStopCalls =
        s.transcoderStopCalls ++ s.mTrackTranscoders.map TrackTranscoder.tid := by
  obtain ⟨k, rfl⟩ : ∃ k, n = k + 1 := ⟨n - 1, by omega⟩
  refine ⟨{ s with
            mCancelled := true
            mSampleWriter := some { w with stopCalls := w.stopCalls + 1 }
            mSampleReader := some { r with enforceSequentialAccess := false }
            transcoderStopCalls :=
              s.transcoderStopCalls ++ s.mTrackTranscoders.map TrackTranscoder.tid },
          ?_, rfl, rfl, rfl, rfl⟩
  simp only [cancelN, cancel_not_cancelled s w r hc hw hr]
  rw [cancelN_of_cancelled k _ rfl]
  simp [List.replicate_succ]

/-- Witness for C4: two consecutive cancels on a concrete configured
session. -/
theorem c4_cancel_exactly_once_witness :
    ({ initSession with
       mSampleWriter := some { trackIds := [], startCalls := 0, started := false, stopCalls := 0 }
       mSampleReader := some { selectedTracks := [], enforceSequentialAccess := true } } :
        Session).mCancelled = false ∧
    (1 : Nat) ≤ 2 ∧
    ∃ s1,
      cancelN
          { initSession with
            mSampleWriter := some { trackIds := [], startCalls := 0, started := false, stopCalls := 0 }
            mSampleReader := some { selectedTracks := [], enforceSequentialAccess := true } } 2 =
        some (s1, List.replicate 2 .ok) ∧
      s1.mCancelled = true ∧
      s1.mSampleWriter = some { trackIds := [], startCalls := 0, started := false, stopCalls := 1 } ∧
      s1.mSampleReader = some { selectedTracks := [], enforceSequentialAccess := false } ∧
      s1.transcoderStopCalls = [] := by
  refine ⟨rfl, by omega, ?_⟩
  obtain ⟨s1, h1, h2, h3, h4, h5⟩ :=
    c4_cancel_exactly_once
      { initSession with
        mSampleWriter := some { trackIds := [], startCalls := 0, started := false, stopCalls := 0 }
        mSampleReader := some { selectedTracks := [], enforceSequentialAccess := true } }
      { trackIds := [], startCalls := 0, started := false, stopCalls := 0 }
      { selectedTracks := [], enforceSequentialAccess := true }
      2 rfl rfl rfl (by omega)
  exact ⟨s1, h1, h2, h3, h4, h5⟩

theorem startLoop_cons_ok (startOk : TranscoderId → Bool) (s : Session)
    (t : TrackTranscoder) (rest : List TrackTranscoder) (h : startOk t.tid = true) :
    startLoop startOk s (t :: rest) =
      startLoop startOk
        { s with transcoderStartCalls := s.transcoderStartCalls ++ [t.tid] } rest := by
  simp [startLoop, h]

theorem startLoop_cons_fail (startOk : TranscoderId → Bool) (s : Session)
    (t : TrackTranscoder) (rest : List TrackTranscoder) (h : startOk t.tid = false) :
    startLoop startOk s (t :: rest) =
      match cancel { s with transcoderStartCalls := s.transcoderStartCalls ++ [t.tid] } with
      | some (s2, _) => some (s2, .errorUnknown)
      | none => none := by
  simp [startLoop, h]

theorem startLoop_all_ok (startOk : TranscoderId → Bool) :
    ∀ (ts : List TrackTranscoder) (s : Session),
      (∀ t ∈ ts, startOk t.tid = true) →
      startLoop startOk s ts =
        some ({ s with
                transcoderStartCalls :=
                  s.transcoderStartCalls ++ ts.map TrackTranscoder.tid },
              .ok) := by
  intro ts
  induction ts with
  | nil => intro s _; simp [startLoop]
  | cons t ts ih =>
      intro s hall
      rw [startLoop_cons_ok startOk s t ts (hall t (by simp))]
      rw [ih _ (fun x hx => hall x (by simp [hx]))]
      simp

theorem startLoop_first_fail (startOk : TranscoderId → Bool) :
    ∀ (ts1 : List TrackTranscoder) (t : TrackTranscoder) (ts2 : List TrackTranscoder)
      (s : Session) (w : SampleWriter) (r : SampleReader),
      (∀ x ∈ ts1, startOk x.tid = true) → startOk t.tid = false →
      s.mCancelled = false → s.mSampleWriter = some w → s.mSampleReader = some r →
      ∃ s2, startLoop startOk s (ts1 ++ t :: ts2) = some (s2, .errorUnknown) ∧
        s2.mCancelled = true ∧
        s2.mSampleWriter = some { w with stopCalls := w.stopCalls + 1 } ∧
        s2.transcoderStartCalls =
          s.transcoderStartCalls ++ ts1.map TrackTranscoder.tid ++ [t.tid] ∧
        s2.transcoderStopCalls =
          s.transcoderStopCalls ++ s.mTrackTranscoders.map TrackTranscoder.tid := by
  intro ts1
  induction ts1 with
  | nil =>
      intro t ts2 s w r _ hf hc hw hr
      rw [List.nil_append, startLoop_cons_fail startOk s t ts2 hf]
      rw [cancel_not_cancelled
            { s with transcoderStartCalls := s.transcoderStartCalls ++ [t.tid] } w r hc hw hr]
      exact ⟨_, rfl, rfl, rfl, by simp, rfl⟩
  | cons t1 ts1 ih =>
      intro t ts2 s w r hall hf hc hw hr
      rw [List.cons_append, startLoop_cons_ok startOk s t1 _ (hall t1 (by simp))]
      obtain ⟨s2, heq, h1, h2, h3, h4⟩ :=
        ih t ts2 { s with transcoderStartCalls := s.transcoderStartCalls ++ [t1.tid] } w r
          (fun x hx => hall x (by simp [hx])) hf hc hw hr
      refine ⟨s2, heq, h1, h2, ?_, h4⟩
      rw [h3]
      simp

/-- Claim C8: `start()` fails with InvalidOperation and no side effects when
no track or no destination is configured; otherwise it starts every
configured track transcoder in list order, and on the first start failure it
invokes `cancel()` and returns the unknown error. -/
theorem c8_start_behaviour (s : Session) (startOk : TranscoderId → Bool) :
    (s.mTrackTranscoders = [] → start s startOk = some (s, .errorInvalidOperation)) ∧
    (s.mTrackTranscoders ≠ [] → s.mSampleWriter = none →
      start s startOk = some (s, .errorInvalidOperation)) ∧
    (s.mTrackTranscoders ≠ [] → s.mSampleWriter.isSome →
      (∀ t ∈ s.mTrackTranscoders, startOk t.tid = true) →
      start s startOk =
        some ({ s with
                transcoderStartCalls :=
                  s.transcoderStartCalls ++ s.mTrackTranscoders.map TrackTranscoder.tid },
              .ok)) ∧
    (∀ ts1 t ts2 w r, s.mTrackTranscoders = ts1 ++ t :: ts2 →
      (∀ x ∈ ts1, startOk x.tid = true) → startOk t.tid = false →
      s.mCancelled = false → s.mSampleWriter = some w → s.mSampleReader = some r →
      ∃ s2, start s startOk = some (s2, .errorUnknown) ∧
        s2.mCancelled = true ∧
        s2.mSampleWriter = some { w with stopCalls := w.stopCalls + 1 } ∧
        s2.transcoderStartCalls =
          s.transcoderStartCalls ++ ts1.map TrackTranscoder.tid ++ [t.tid]) := by
  refine ⟨?_, ?_, ?_, ?_⟩
  · intro h
    unfold start
    rw [if_pos (by simp [h])]
  · intro h hwn
    unfold start
    rw [if_neg (by simp [h]), if_pos (by simp [hwn])]
  · intro h hws hall
    unfold start
    rw [if_neg (by simp [h]), if_neg (by simp [Option.isNone_iff_eq_none]; exact Option.isSome_iff_ne_none.mp hws)]
    exact startLoop_all_ok startOk s.mTrackTranscoders s hall
  · intro ts1 t ts2 w r hts hall hf hc hw hr
    unfold start
    rw [if_neg (by simp [hts]), if_neg (by simp [hw])]
    rw [hts]
    obtain ⟨s2, heq, h1, h2, h3, _⟩ :=
      startLoop_first_fail startOk ts1 t ts2 s w r hall hf hc hw hr
    exact ⟨s2, heq, h1, h2, h3⟩

/-- Witness for C8: the no-track case and a one-track failing-start case on
concrete sessions. -/
theorem c8_start_behaviour_witness :
    start initSession (fun _ => true) = some (initSession, .errorInvalidOperation) ∧
    ∃ s2,
      start
          { initSession with
            mTrackTranscoders :=
              [{ tid := 7, kind := .passthrough, trackIndex := 0, outFormat := none }]
            mSampleWriter := some { trackIds := [], startCalls := 0, started := false, stopCalls := 0 }
            mSampleReader := some { selectedTracks := [], enforceSequentialAccess := false } }
          (fun _ => false) =
        some (s2, .errorUnknown) ∧
      s2.mCancelled = true ∧
      s2.mSampleWriter = some { trackIds := [], startCalls := 0, started := false, stopCalls := 1 } ∧
      s2.transcoderStartCalls = [7] := by
  constructor
  · exact (c8_start_behaviour initSession (fun _ => true)).1 rfl
  · obtain ⟨s2, heq, h1, h2, h3⟩ :=
      (c8_start_behaviour
        { initSession with
          mTrackTranscoders :=
            [{ tid := 7, kind := .passthrough, trackIndex := 0, outFormat := none }]
          mSampleWriter := some { trackIds := [], startCalls := 0, started := false, stopCalls := 0 }
          mSampleReader := some { selectedTracks := [], enforceSequentialAccess := false } }
        (fun _ => false)).2.2.2
        [] { tid := 7, kind := .passthrough, trackIndex := 0, outFormat := none } []
        { trackIds := [], startCalls := 0, started := false, stopCalls := 0 }
        { selectedTracks := [], enforceSequentialAccess := false }
        rfl (by simp) rfl rfl rfl rfl
    exact ⟨s2, heq, h1, h2, h3⟩

theorem getTrackFormats_heap_len :
    ∀ (rs : List Nat) (h : FormatHeap),
      (getTrackFormats h rs).1.cells.length = h.cells.length + rs.length := by
  intro rs
  induction rs with
  | nil => intro h; rfl
  | cons r rs ih =>
      intro h
      show (getTrackFormats ⟨h.cells ++ [h.read r]⟩ rs).1.cells.length = _
      rw [ih]
      simp
      omega

theorem getTrackFormats_read_lt :
    ∀ (rs : List Nat) (h : FormatHeap) (i : Nat), i < h.cells.length →
      (getTrackFormats h rs).1.read i = h.read i := by
  intro rs
  induction rs with
  | nil => intro h i _; rfl
  | cons r rs ih =>
      intro h i hi
      show (getTrackFormats ⟨h.cells ++ [h.read r]⟩ rs).1.read i = h.read i
      rw [ih ⟨h.cells ++ [h.read r]⟩ i (by simp; omega)]
      unfold FormatHeap.read
      simp only
      rw [List.getD_eq_getElem?_getD, List.getD_eq_getElem?_getD,
          List.getElem?_append_left hi]
      simp [List.getD_eq_getElem?_getD]

theorem getTrackFormats_refs_ge :
    ∀ (rs : List Nat) (h : FormatHeap) (x : Nat), x ∈ (getTrackFormats h rs).2 →
      h.cells.length ≤ x := by
  intro rs
  induction rs with
  | nil => intro h x hx; simp [getTrackFormats] at hx
  | cons r rs ih =>
      intro h x hx
      have hx2 : x = h.cells.length ∨ x ∈ (getTrackFormats ⟨h.cells ++ [h.read r]⟩ rs).2 := by
        simpa [getTrackFormats] using hx
      rcases hx2 with rfl | hx2
      · exact Nat.le_refl _
      · have := ih ⟨h.cells ++ [h.read r]⟩ x hx2
        simp at this
        omega

theorem getTrackFormats_contents :
    ∀ (rs : List Nat) (h : FormatHeap), (∀ r ∈ rs, r < h.cells.length) →
      ((getTrackFormats h rs).2).map (getTrackFormats h rs).1.read = rs.map h.read := by
  intro rs
  induction rs with
  | nil => intro h _; rfl
  | cons r rs ih =>
      intro h hv
      have hv1 : ∀ x ∈ rs, x < (h.cells ++ [h.read r]).length := by
        intro x hx
        have := hv x (by simp [hx])
        simp
        omega
      show List.map (getTrackFormats ⟨h.cells ++ [h.read r]⟩ rs).1.read
          (h.cells.length :: (getTrackFormats ⟨h.cells ++ [h.read r]⟩ rs).2) =
        h.read r :: rs.map h.read
      rw [List.map_cons]
      congr 1
      · rw [getTrackFormats_read_lt rs ⟨h.cells ++ [h.read r]⟩ h.cells.length (by simp)]
        unfold FormatHeap.read
        simp only
        rw [List.getD_eq_getElem?_getD, List.getElem?_append_right (Nat.le_refl _)]
        simp
      · rw [ih ⟨h.cells ++ [h.read r]⟩ hv1]
        refine List.map_congr_left (fun x hx => ?_)
        unfold FormatHeap.read
        simp only
        rw [List.getD_eq_getElem?_getD, List.getD_eq_getElem?_getD,
            List.getElem?_append_left (hv x (by simp [hx]))]
        simp [List.getD_eq_getElem?_getD]

theorem write_read_ne (h : FormatHeap) (x : Nat) (v : Format) (r : Nat) (hne : x ≠ r) :
    (h.write x v).read r = h.read r := by
  unfold FormatHeap.write FormatHeap.read
  simp only
  rw [List.getD_eq_getElem?_getD, List.getD_eq_getElem?_getD, List.getElem?_set_ne hne]

/-- Claim C9: `getTrackFormats()` returns fresh deep copies of the captured
source descriptors: the returned references never alias the stored ones,
their contents equal the stored contents, and mutating any returned
descriptor changes neither the stored descriptors nor what a subsequent
`getTrackFormats()` returns. -/
theorem c9_getTrackFormats_deep_copy (h : FormatHeap) (rs : List Nat)
    (hv : ∀ r ∈ rs, r < h.cells.length) :
    (∀ x ∈ (getTrackFormats h rs).2, x ∉ rs) ∧
    ((getTrackFormats h rs).2).map (getTrackFormats h rs).1.read = rs.map h.read ∧
    (∀ x ∈ (getTrackFormats h rs).2, ∀ v, ∀ r ∈ rs,
      ((getTrackFormats h rs).1.write x v).read r = h.read r) ∧
    (∀ x ∈ (getTrackFormats h rs).2, ∀ v,
      ((getTrackFormats ((getTrackFormats h rs).1.write x v) rs).2).map
        (getTrackFormats ((getTrackFormats h rs).1.write x v) rs).1.read =
      rs.map h.read) := by
  have hfresh : ∀ x ∈ (getTrackFormats h rs).2, ∀ r ∈ rs, x ≠ r := by
    intro x hx r hr hc
    have h1 := getTrackFormats_refs_ge rs h x hx
    have h2 := hv r hr
    omega
  have hwrite : ∀ x ∈ (getTrackFormats h rs).2, ∀ v, ∀ r ∈ rs,
      ((getTrackFormats h rs).1.write x v).read r = h.read r := by
    intro x hx v r hr
    rw [write_read_ne _ x v r (hfresh x hx r hr)]
    exact getTrackFormats_read_lt rs h r (hv r hr)
  refine ⟨fun x hx hmem => hfresh x hx x hmem rfl,
          getTrackFormats_contents rs h hv, hwrite, ?_⟩
  intro x hx v
  have hv2 : ∀ r ∈ rs, r < ((getTrackFormats h rs).1.write x v).cells.length := by
    intro r hr
    have hlen := getTrackFormats_heap_len rs h
    unfold FormatHeap.write
    simp only [List.length_set]
    have := hv r hr
    omega
  rw [getTrackFormats_contents rs _ hv2]
  exact List.map_congr_left (fun r hr => hwrite x hx v r hr)

/-- Witness for C9 on a one-descriptor heap. -/
theorem c9_getTrackFormats_deep_copy_witness :
    (∀ r ∈ [0], r < (FormatHeap.mk [[("mime", FormatValue.vString "audio/aac")]]).cells.length) ∧
    (∀ x ∈ (getTrackFormats ⟨[[("mime", FormatValue.vString "audio/aac")]]⟩ [0]).2, x ∉ [0]) ∧
    ((getTrackFormats ⟨[[("mime", FormatValue.vString "audio/aac")]]⟩ [0]).2).map
        (getTrackFormats ⟨[[("mime", FormatValue.vString "audio/aac")]]⟩ [0]).1.read =
      [0].map (FormatHeap.mk [[("mime", FormatValue.vString "audio/aac")]]).read ∧
    (∀ x ∈ (getTrackFormats ⟨[[("mime", FormatValue.vString "audio/aac")]]⟩ [0]).2, ∀ v, ∀ r ∈ [0],
      ((getTrackFormats ⟨[[("mime", FormatValue.vString "audio/aac")]]⟩ [0]).1.write x v).read r =
        (FormatHeap.mk [[("mime", FormatValue.vString "audio/aac")]]).read r) := by
  have h := c9_getTrackFormats_deep_copy ⟨[[("mime", FormatValue.vString "audio/aac")]]⟩ [0]
    (by decide)
  exact ⟨by decide, h.1, h.2.1, h.2.2.1⟩

/-- Claim C7: the error taxonomy of `configureTrackFormat`: InvalidOperation
without a configured source; InvalidParameter for an out-of-range index; with
an override, Malformed when the source track has no mime string, Unsupported
when the source track is not video or the override names a non-video
destination mime; without an override any track type is accepted as
passthrough (the outcome is decided solely by the transcoder's configure
status). -/
theorem c7_configureTrackFormat_errors (s : Session) (ti : Nat) (env : TrackEnv) :
    (∀ ov, s.mSampleReader = none →
      configureTrackFormat s ti ov env = (s, .errorInvalidOperation)) ∧
    (∀ ov reader, s.mSampleReader = some reader → s.mSourceTrackFormats.length ≤ ti →
      configureTrackFormat s ti ov env = (s, .errorInvalidParameter)) ∧
    (∀ f reader, s.mSampleReader = some reader → ti < s.mSourceTrackFormats.length →
      env.selectTrackStatus = .ok →
      (∀ m, (s.mSourceTrackFormats.getD ti []).get "mime" ≠ some (.vString m)) →
      (configureTrackFormat s ti (some f) env).2 = .errorMalformed) ∧
    (∀ f reader m, s.mSampleReader = some reader → ti < s.mSourceTrackFormats.length →
      env.selectTrackStatus = .ok →
      (s.mSourceTrackFormats.getD ti []).get "mime" = some (.vString m) →
      hasVideoPrefix m = false →
      (configureTrackFormat s ti (some f) env).2 = .errorUnsupported) ∧
    (∀ f reader m dm, s.mSampleReader = some reader → ti < s.mSourceTrackFormats.length →
      env.selectTrackStatus = .ok →
      (s.mSourceTrackFormats.getD ti []).get "mime" = some (.vString m) →
      hasVideoPrefix m = true →
      f.get "mime" = some (.vString dm) → hasVideoPrefix dm = false →
      (configureTrackFormat s ti (some f) env).2 = .errorUnsupported) ∧
    (∀ reader, s.mSampleReader = some reader → ti < s.mSourceTrackFormats.length →
      env.selectTrackStatus = .ok →
      (configureTrackFormat s ti none env).2 =
        (if env.configureStatus = .ok then .ok else env.configureStatus) ∧
      (env.configureStatus = .ok →
        (configureTrackFormat s ti none env).1.mTrackTranscoders =
          s.mTrackTranscoders ++
            [{ tid := env.newId, kind := .passthrough, trackIndex := ti,
               outFormat := none }])) := by
  refine ⟨?_, ?_, ?_, ?_, ?_, ?_⟩
  · intro ov h
    simp [configureTrackFormat, h]
  · intro ov reader hr hle
    simp [configureTrackFormat, hr, hle]
  · intro f reader hr hlt hsel hnm
    simp only [configureTrackFormat, hr]
    rw [if_neg (by omega)]
    rw [if_neg (by simp [hsel])]
  · intro f reader m hr hlt hsel hm hnv
    simp only [configureTrackFormat, hr]
    rw [if_neg (by omega)]
    rw [if_neg (by simp [hsel])]
    simp only [hm]
    rw [if_pos (by simp [hnv])]
  · intro f reader m dm hr hlt hsel hm hv hdm hndv
    simp only [configureTrackFormat, hr]
    rw [if_neg (by omega)]
    rw [if_neg (by simp [hsel])]
    simp only [hm]
    rw [if_neg (by simp [hv]), hdm]
    rw [if_pos (by simp [hndv])]
  · intro reader hr hlt hsel
    constructor
    · simp only [configureTrackFormat, hr]
      rw [if_neg (by omega)]
      rw [if_neg (by simp [hsel])]
      by_cases hcf : env.configureStatus = .ok
      · rw [if_neg (by simp [hcf]), if_pos hcf]
      · rw [if_pos (by simp [hcf]), if_neg hcf]
    · intro hcf
      simp only [configureTrackFormat, hr]
      rw [if_neg (by omega)]
      rw [if_neg (by simp [hsel])]
      rw [if_neg (by simp [hcf])]
      simp [appendTranscoder]

/-- Witness for C7: concrete sessions exercising the no-source,
out-of-range, non-video-source and passthrough cases. -/
theorem c7_configureTrackFormat_errors_witness :
    configureTrackFormat initSession 0 none
        { selectTrackStatus := .ok, configureStatus := .ok, newId := 3 } =
      (initSession, .errorInvalidOperation) ∧
    configureTrackFormat
        { initSession with
          mSampleReader := some { selectedTracks := [], enforceSequentialAccess := false } } 0 none
        { selectTrackStatus := .ok, configureStatus := .ok, newId := 3 } =
      ({ initSession with
         mSampleReader := some { selectedTracks := [], enforceSequentialAccess := false } },
       .errorInvalidParameter) ∧
    (configureTrackFormat
        { initSession with
          mSampleReader := some { selectedTracks := [], enforceSequentialAccess := false }
          mSourceTrackFormats := [[("mime", FormatValue.vString "audio/aac")]] } 0
        (some [("bitrate", FormatValue.vInt32 128000)])
        { selectTrackStatus := .ok, configureStatus := .ok, newId := 3 }).2 =
      .errorUnsupported ∧
    (configureTrackFormat
        { initSession with
          mSampleReader := some { selectedTracks := [], enforceSequentialAccess := false }
          mSourceTrackFormats := [[("mime", FormatValue.vString "audio/aac")]] } 0
        none
        { selectTrackStatus := .ok, configureStatus := .ok, newId := 3 }).2 = .ok := by
  have h0 := c7_configureTrackFormat_errors initSession 0
    { selectTrackStatus := .ok, configureStatus := .ok, newId := 3 }
  have h1 := c7_configureTrackFormat_errors
    { initSession with
      mSampleReader := some { selectedTracks := [], enforceSequentialAccess := false } } 0
    { selectTrackStatus := .ok, configureStatus := .ok, newId := 3 }
  have h2 := c7_configureTrackFormat_errors
    { initSession with
      mSampleReader := some { selectedTracks := [], enforceSequentialAccess := false }
      mSourceTrackFormats := [[("mime", FormatValue.vString "audio/aac")]] } 0
    { selectTrackStatus := .ok, configureStatus := .ok, newId := 3 }
  refine ⟨h0.1 none rfl, h1.2.1 none _ rfl (by decide), ?_, ?_⟩
  · exact h2.2.2.2.1 [("bitrate", FormatValue.vInt32 128000)] _ "audio/aac" rfl (by decide)
      rfl (by decide) (by decide)
  · have := (h2.2.2.2.2.2 _ rfl (by decide) rfl).1
    rw [this]
    decide

theorem captureFormats_frame :
    ∀ (fmts : List (Option Format)) (s : Session),
      (captureFormats s fmts).1.mTrackTranscoders = s.mTrackTranscoders ∧
      (captureFormats s fmts).1.mSampleWriter = s.mSampleWriter ∧
      (captureFormats s fmts).1.mSampleReader = s.mSampleReader := by
  intro fmts
  induction fmts with
  | nil => intro s; exact ⟨rfl, rfl, rfl⟩
  | cons hd tl ih =>
      intro s
      cases hd with
      | none => exact ⟨rfl, rfl, rfl⟩
      | some f =>
          exact ih { s with mSourceTrackFormats := s.mSourceTrackFormats ++ [f] }

/-- Counterexample to C6 as stated: two configuration calls that return an
error and nevertheless change the session.  `configureSource` on a container
whose second track has no format returns Malformed but keeps the reader and
the first track's captured format; `configureTrackFormat` on an audio track
with an override returns Unsupported after the reader-side track selection
has already been performed. -/
theorem c6_counterexample :
    ((configureSource initSession 3
        { parsed := some [some [("mime", FormatValue.vString "video/avc")], none] }).2 =
          .errorMalformed ∧
      (configureSource initSession 3
        { parsed := some [some [("mime", FormatValue.vString "video/avc")], none] }).1 ≠
          initSession ∧
      (configureSource initSession 3
        { parsed := some [some [("mime", FormatValue.vString "video/avc")], none]
        }).1.mSourceTrackFormats = [[("mime", FormatValue.vString "video/avc")]]) ∧
    ((configureTrackFormat
        { initSession with
          mSampleReader := some { selectedTracks := [], enforceSequentialAccess := false }
          mSourceTrackFormats := [[("mime", FormatValue.vString "audio/aac")]] } 0
        (some [("bitrate", FormatValue.vInt32 128000)])
        { selectTrackStatus := .ok, configureStatus := .ok, newId := 3 }).2 =
          .errorUnsupported ∧
      (configureTrackFormat
        { initSession with
          mSampleReader := some { selectedTracks := [], enforceSequentialAccess := false }
          mSourceTrackFormats := [[("mime", FormatValue.vString "audio/aac")]] } 0
        (some [("bitrate", FormatValue.vInt32 128000)])
        { selectTrackStatus := .ok, configureStatus := .ok, newId := 3 }).1.mSampleReader =
          some { selectedTracks := [0], enforceSequentialAccess := false }) := by
  refine ⟨⟨by decide, ?_, by decide⟩, by decide, by decide⟩
  intro hc
  have : (configureSource initSession 3
      { parsed := some [some [("mime", FormatValue.vString "video/avc")], none]
      }).1.mSourceTrackFormats = initSession.mSourceTrackFormats := by rw [hc]
  revert this
  decide

/-- Claim C6, amended: a configuration call that returns an error never
registers a track transcoder; `configureDestination` on error leaves the
whole session in its prior state, and `configureTrackFormat` on error also
leaves the captured source formats and the writer unchanged.  (As stated the
claim is false: `configureSource`'s Malformed path keeps the reader and the
formats captured before the failing track, and `configureTrackFormat` keeps
the reader-side track selection made before a later failure — see the
counterexample.) -/
theorem c6_no_partial_track_on_error (s : Session) (fd : Int) (ti : Nat)
    (ov : Option Format) (senv : SourceEnv) (tenv : TrackEnv) (denv : DestEnv) :
    ((configureSource s fd senv).2 ≠ .ok →
      (configureSource s fd senv).1.mTrackTranscoders = s.mTrackTranscoders ∧
      (configureSource s fd senv).1.mSampleWriter = s.mSampleWriter) ∧
    ((configureTrackFormat s ti ov tenv).2 ≠ .ok →
      (configureTrackFormat s ti ov tenv).1.mTrackTranscoders = s.mTrackTranscoders ∧
      (configureTrackFormat s ti ov tenv).1.mSourceTrackFormats = s.mSourceTrackFormats ∧
      (configureTrackFormat s ti ov tenv).1.mSampleWriter = s.mSampleWriter) ∧
    ((configureDestination s fd denv).2 ≠ .ok →
      (configureDestination s fd denv).1 = s) := by
  refine ⟨?_, ?_, ?_⟩
  · intro hne
    by_cases hfd : fd < 0
    · simp [configureSource, hfd]
    · cases hp : senv.parsed with
      | none => simp [configureSource, hfd, hp]
      | some fmts =>
          have h := captureFormats_frame fmts
            { s with
              mSampleReader :=
                some { selectedTracks := [], enforceSequentialAccess := false } }
          simp only [configureSource, if_neg hfd, hp]
          exact ⟨h.1, h.2.1⟩
  · have key : ∀ p : Session × MediaStatus, configureTrackFormat s ti ov tenv = p →
        p.2 ≠ .ok →
        p.1.mTrackTranscoders = s.mTrackTranscoders ∧
        p.1.mSourceTrackFormats = s.mSourceTrackFormats ∧
        p.1.mSampleWriter = s.mSampleWriter := by
      intro p hp hne
      simp only [configureTrackFormat] at hp
      repeat' split at hp
      all_goals
        first
        | (cases hp; exact ⟨rfl, rfl, rfl⟩)
        | (cases hp; simp [appendTranscoder] at hne)
    exact key _ rfl
  · intro hne
    by_cases hfd : fd < 0
    · simp [configureDestination, hfd]
    · by_cases hws : s.mSampleWriter.isSome
      · simp [configureDestination, hfd, hws]
      · by_cases hinit : denv.initOk
        · exfalso
          apply hne
          simp [configureDestination, hfd, hws, hinit]
        · simp [configureDestination, hfd, hws, hinit]

/-- Witness for the amended C6 at concrete failing calls. -/
theorem c6_no_partial_track_on_error_witness :
    (configureSource initSession 3
        { parsed := some [some [("mime", FormatValue.vString "video/avc")], none] }).2 ≠ .ok ∧
    (configureSource initSession 3
        { parsed := some [some [("mime", FormatValue.vString "video/avc")], none]
        }).1.mTrackTranscoders = initSession.mTrackTranscoders ∧
    (configureTrackFormat
        { initSession with
          mSampleReader := some { selectedTracks := [], enforceSequentialAccess := false }
          mSourceTrackFormats := [[("mime", FormatValue.vString "audio/aac")]] } 0
        (some [("bitrate", FormatValue.vInt32 128000)])
        { selectTrackStatus := .ok, configureStatus := .ok, newId := 3 }).2 ≠ .ok ∧
    (configureTrackFormat
        { initSession with
          mSampleReader := some { selectedTracks := [], enforceSequentialAccess := false }
          mSourceTrackFormats := [[("mime", FormatValue.vString "audio/aac")]] } 0
        (some [("bitrate", FormatValue.vInt32 128000)])
        { selectTrackStatus := .ok, configureStatus := .ok, newId := 3 }).1.mTrackTranscoders =
      [] ∧
    (configureDestination initSession (-1) { initOk := true }).2 ≠ .ok ∧
    (configureDestination initSession (-1) { initOk := true }).1 = initSession := by
  have h1 := c6_no_partial_track_on_error initSession 3 0 none
    { parsed := some [some [("mime", FormatValue.vString "video/avc")], none] }
    { selectTrackStatus := .ok, configureStatus := .ok, newId := 3 } { initOk := true }
  have h2 := c6_no_partial_track_on_error
    { initSession with
      mSampleReader := some { selectedTracks := [], enforceSequentialAccess := false }
      mSourceTrackFormats := [[("mime", FormatValue.vString "audio/aac")]] } 3 0
    (some [("bitrate", FormatValue.vInt32 128000)])
    { parsed := some [some [("mime", FormatValue.vString "video/avc")], none] }
    { selectTrackStatus := .ok, configureStatus := .ok, newId := 3 } { initOk := true }
  have h3 := c6_no_partial_track_on_error initSession (-1) 0 none
    { parsed := some [some [("mime", FormatValue.vString "video/avc")], none] }
    { selectTrackStatus := .ok, configureStatus := .ok, newId := 3 } { initOk := true }
  exact ⟨by decide, (h1.1 (by decide)).1, by decide, (h2.2.1 (by decide)).1,
         by decide, h3.2.2 (by decide)⟩

theorem sendCallback_of_sent (s : Session) (st : MediaStatus)
    (h : s.mCallbackSent = true) : sendCallback s st = s := by
  unfold sendCallback
  by_cases h1 : s.mCancelled = true ∧ st ≠ .ok
  · rw [if_pos (by simp [h1.1, h1.2])]
  · rw [if_neg (by simpa using h1), if_pos (by simp [h])]

theorem sendCallback_cases (s : Session) (st : MediaStatus)
    (h : s.mCallbackSent = false) :
    sendCallback s st = s ∨
    sendCallback s st =
      { s with mCallbackSent := true, delivered := s.delivered ++ [callbackOf st] } := by
  unfold sendCallback
  by_cases h1 : s.mCancelled = true ∧ st ≠ .ok
  · left
    rw [if_pos (by simp [h1.1, h1.2])]
  · right
    rw [if_neg (by simpa using h1), if_neg (by simp [h])]

theorem sendCallback_frame (s : Session) (st : MediaStatus) :
    (sendCallback s st).mSampleWriter = s.mSampleWriter ∧
    (sendCallback s st).mSampleReader = s.mSampleReader ∧
    (sendCallback s st).mTracksAdded = s.mTracksAdded ∧
    (sendCallback s st).mTrackTranscoders = s.mTrackTranscoders ∧
    (sendCallback s st).mCancelled = s.mCancelled := by
  unfold sendCallback
  by_cases h1 : s.mCancelled = true ∧ st ≠ .ok
  · rw [if_pos (by simp [h1.1, h1.2])]
    exact ⟨rfl, rfl, rfl, rfl, rfl⟩
  · rw [if_neg (by simpa using h1)]
    by_cases h2 : s.mCallbackSent = true
    · rw [if_pos (by simp [h2])]
      exact ⟨rfl, rfl, rfl, rfl, rfl⟩
    · rw [if_neg (by simp at h2 ⊢; exact h2)]
      exact ⟨rfl, rfl, rfl, rfl, rfl⟩

theorem sendCallback_delivers (s : Session) (st : MediaStatus)
    (hc : s.mCancelled = false) (hcb : s.mCallbackSent = false) :
    sendCallback s st =
      { s with mCallbackSent := true, delivered := s.delivered ++ [callbackOf st] } := by
  unfold sendCallback
  rw [if_neg (by simp [hc]), if_neg (by simp [hcb])]

theorem stepEvent_cancelCall (s : Session)
    (hw : s.mSampleWriter.isSome) (hr : s.mSampleReader.isSome) :
    ∃ s1, stepEvent s .cancelCall = some s1 ∧
      s1.delivered = s.delivered ∧ s1.mCallbackSent = s.mCallbackSent ∧
      s1.mSampleWriter.isSome ∧ s1.mSampleReader.isSome := by
  by_cases hc : s.mCancelled = true
  · exact ⟨s, by simp [stepEvent, cancel_of_cancelled s hc], rfl, rfl, hw, hr⟩
  · obtain ⟨w, hweq⟩ := Option.isSome_iff_exists.mp hw
    obtain ⟨r, hreq⟩ := Option.isSome_iff_exists.mp hr
    refine ⟨{ s with
              mCancelled := true
              mSampleWriter := some { w with stopCalls := w.stopCalls + 1 }
              mSampleReader := some { r with enforceSequentialAccess := false }
              transcoderStopCalls :=
                s.transcoderStopCalls ++ s.mTrackTranscoders.map TrackTranscoder.tid },
            ?_, rfl, rfl, rfl, rfl⟩
    simp [stepEvent, cancel_not_cancelled s w r (by simpa using hc) hweq hreq]

theorem runEvents_of_sent :
    ∀ (tr : List TermEvent) (s : Session), s.mCallbackSent = true →
      s.mSampleWriter.isSome → s.mSampleReader.isSome →
      ∃ s1, runEvents s tr = some s1 ∧ s1.delivered = s.delivered ∧
        s1.mCallbackSent = true := by
  intro tr
  induction tr with
  | nil => intro s h hw hr; exact ⟨s, rfl, rfl, h⟩
  | cons e es ih =>
      intro s h hw hr
      cases e with
      | trackFinished =>
          obtain ⟨s1, hrun, hd, hs⟩ := ih s h hw hr
          exact ⟨s1, hrun, hd, hs⟩
      | trackError st =>
          obtain ⟨s1, hrun, hd, hs⟩ := ih s h hw hr
          refine ⟨s1, ?_, hd, hs⟩
          simp [runEvents, stepEvent, onTrackError, sendCallback_of_sent s st h, hrun]
      | writerFinished st =>
          obtain ⟨s1, hrun, hd, hs⟩ := ih s h hw hr
          refine ⟨s1, ?_, hd, hs⟩
          simp [runEvents, stepEvent, onWriterFinished, sendCallback_of_sent s st h, hrun]
      | cancelCall =>
          obtain ⟨sc, hstep, hd0, hs0, hw0, hr0⟩ := stepEvent_cancelCall s hw hr
          obtain ⟨s1, hrun, hd, hs⟩ := ih sc (hs0.trans h) hw0 hr0
          refine ⟨s1, ?_, hd.trans hd0, hs⟩
          simp [runEvents, hstep, hrun]

theorem runEvents_no_client_cancel :
    ∀ (tr : List TermEvent) (s : Session),
      s.mSampleWriter.isSome → s.mSampleReader.isSome →
      s.mCancelled = false → s.mCallbackSent = false →
      noCancelBeforeTerm tr = true →
      ∃ s1, runEvents s tr = some s1 ∧
        (match firstTermStatus tr with
         | some st => s1.delivered = s.delivered ++ [callbackOf st]
         | none => s1.delivered = s.delivered) := by
  intro tr
  induction tr with
  | nil => intro s _ _ _ _ _; exact ⟨s, rfl, rfl⟩
  | cons e es ih =>
      intro s hw hr hc hcb hnc
      cases e with
      | trackFinished =>
          obtain ⟨s1, hrun, hd⟩ := ih s hw hr hc hcb (by simpa [noCancelBeforeTerm] using hnc)
          exact ⟨s1, hrun, hd⟩
      | cancelCall => simp [noCancelBeforeTerm] at hnc
      | trackError st =>
          have hsend := sendCallback_delivers s st hc hcb
          obtain ⟨s1, hrun, hd, _⟩ :=
            runEvents_of_sent es
              { s with mCallbackSent := true, delivered := s.delivered ++ [callbackOf st] }
              rfl (by simpa using hw) (by simpa using hr)
          refine ⟨s1, ?_, ?_⟩
          · simp [runEvents, stepEvent, onTrackError, hsend, hrun]
          · simpa [firstTermStatus, termStatus?] using hd
      | writerFinished st =>
          have hsend := sendCallback_delivers s st hc hcb
          obtain ⟨s1, hrun, hd, _⟩ :=
            runEvents_of_sent es
              { s with mCallbackSent := true, delivered := s.delivered ++ [callbackOf st] }
              rfl (by simpa using hw) (by simpa using hr)
          refine ⟨s1, ?_, ?_⟩
          · simp [runEvents, stepEvent, onWriterFinished, hsend, hrun]
          · simpa [firstTermStatus, termStatus?] using hd

theorem runEvents_at_most_one :
    ∀ (tr : List TermEvent) (s : Session),
      s.mSampleWriter.isSome → s.mSampleReader.isSome →
      ((s.mCallbackSent = false ∧ s.delivered = []) ∨
        (s.mCallbackSent = true ∧ s.delivered.length ≤ 1)) →
      ∃ s1, runEvents s tr = some s1 ∧ s1.delivered.length ≤ 1 := by
  intro tr
  induction tr with
  | nil =>
      intro s _ _ hinv
      refine ⟨s, rfl, ?_⟩
      rcases hinv with ⟨_, hd⟩ | ⟨_, hd⟩
      · simp [hd]
      · exact hd
  | cons e es ih =>
      intro s hw hr hinv
      cases e with
      | trackFinished => exact ih s hw hr hinv
      | cancelCall =>
          obtain ⟨sc, hstep, hd0, hs0, hw0, hr0⟩ := stepEvent_cancelCall s hw hr
          obtain ⟨s1, hrun, hlen⟩ := ih sc hw0 hr0 (by rw [hs0, hd0]; exact hinv)
          refine ⟨s1, ?_, hlen⟩
          simp [runEvents, hstep, hrun]
      | trackError st =>
          rcases hinv with ⟨hcb, hd⟩ | ⟨hcb, hd⟩
          · rcases sendCallback_cases s st hcb with hsend | hsend
            · obtain ⟨s1, hrun, hlen⟩ := ih s hw hr (Or.inl ⟨hcb, hd⟩)
              refine ⟨s1, ?_, hlen⟩
              simp [runEvents, stepEvent, onTrackError, hsend, hrun]
            · obtain ⟨s1, hrun, hlen⟩ :=
                ih { s with mCallbackSent := true, delivered := s.delivered ++ [callbackOf st] }
                  (by simpa using hw) (by simpa using hr)
                  (Or.inr ⟨rfl, by simp [hd]⟩)
              refine ⟨s1, ?_, hlen⟩
              simp [runEvents, stepEvent, onTrackError, hsend, hrun]
          · obtain ⟨s1, hrun, hlen⟩ := ih s hw hr (Or.inr ⟨hcb, hd⟩)
            refine ⟨s1, ?_, hlen⟩
            simp [runEvents, stepEvent, onTrackError, sendCallback_of_sent s st hcb, hrun]
      | writerFinished st =>
          rcases hinv with ⟨hcb, hd⟩ | ⟨hcb, hd⟩
          · rcases sendCallback_cases s st hcb with hsend | hsend
            · obtain ⟨s1, hrun, hlen⟩ := ih s hw hr (Or.inl ⟨hcb, hd⟩)
              refine ⟨s1, ?_, hlen⟩
              simp [runEvents, stepEvent, onWriterFinished, hsend, hrun]
            · obtain ⟨s1, hrun, hlen⟩ :=
                ih { s with mCallbackSent := true, delivered := s.delivered ++ [callbackOf st] }
                  (by simpa using hw) (by simpa using hr)
                  (Or.inr ⟨rfl, by simp [hd]⟩)
              refine ⟨s1, ?_, hlen⟩
              simp [runEvents, stepEvent, onWriterFinished, hsend, hrun]
          · obtain ⟨s1, hrun, hlen⟩ := ih s hw hr (Or.inr ⟨hcb, hd⟩)
            refine ⟨s1, ?_, hlen⟩
            simp [runEvents, stepEvent, onWriterFinished, sendCallback_of_sent s st hcb, hrun]

/-- Claim C1: from a running session (started, no callback yet, not
cancelled), any interleaving of track-error, writer-finished, track-finished
and cancel events delivers at most one terminal callback; and when no client
cancel precedes the first terminal notification, exactly one terminal
callback is delivered — the one of the first terminal notification (later
terminal events are dropped by the one-shot `mCallbackSent` flag). -/
theorem c1_exactly_one_terminal_callback (s : Session) (tr : List TermEvent)
    (hw : s.mSampleWriter.isSome) (hr : s.mSampleReader.isSome)
    (hc : s.mCancelled = false) (hcb : s.mCallbackSent = false)
    (hd : s.delivered = []) :
    ∃ s1, runEvents s tr = some s1 ∧
      s1.delivered.length ≤ 1 ∧
      (noCancelBeforeTerm tr = true →
        ∀ st, firstTermStatus tr = some st → s1.delivered = [callbackOf st]) := by
  obtain ⟨s1, hrun, hlen⟩ := runEvents_at_most_one tr s hw hr (Or.inl ⟨hcb, hd⟩)
  refine ⟨s1, hrun, hlen, ?_⟩
  intro hnc st hst
  obtain ⟨s2, hrun2, hfw⟩ := runEvents_no_client_cancel tr s hw hr hc hcb hnc
  rw [hrun] at hrun2
  injection hrun2 with he
  subst he
  rw [hst] at hfw
  simpa [hd] using hfw

/-- Witness for C1: a concrete running session and trace in which the writer
finishes successfully, a late track error arrives, and the asynchronous
teardown cancel follows; exactly the finished callback is delivered. -/
theorem c1_exactly_one_terminal_callback_witness :
    noCancelBeforeTerm
        [.trackFinished, .writerFinished .ok, .trackError .errorUnknown, .cancelCall] = true ∧
    firstTermStatus
        [.trackFinished, .writerFinished .ok, .trackError .errorUnknown, .cancelCall] =
      some .ok ∧
    ∃ s1,
      runEvents
          { initSession with
            mSampleWriter := some { trackIds := [], startCalls := 1, started := true, stopCalls := 0 }
            mSampleReader := some { selectedTracks := [], enforceSequentialAccess := true } }
          [.trackFinished, .writerFinished .ok, .trackError .errorUnknown, .cancelCall] =
        some s1 ∧
      s1.delivered.length ≤ 1 ∧
      s1.delivered = [callbackOf .ok] := by
  obtain ⟨s1, hrun, hlen, hone⟩ :=
    c1_exactly_one_terminal_callback
      { initSession with
        mSampleWriter := some { trackIds := [], startCalls := 1, started := true, stopCalls := 0 }
        mSampleReader := some { selectedTracks := [], enforceSequentialAccess := true } }
      [.trackFinished, .writerFinished .ok, .trackError .errorUnknown, .cancelCall]
      rfl rfl rfl rfl rfl
  exact ⟨rfl, rfl, s1, hrun, hlen, hone rfl .ok rfl⟩

theorem mem_of_nodup_subset_length_eq {l1 l2 : List Nat} (h1 : l1.Nodup) (h2 : l2.Nodup)
    (hsub : ∀ x ∈ l1, x ∈ l2) (hlen : l1.length = l2.length) :
    ∀ x ∈ l2, x ∈ l1 := by
  intro x hx
  have hsub2 : l1.toFinset ⊆ l2.toFinset := by
    intro a ha
    rw [List.mem_toFinset] at ha ⊢
    exact hsub a ha
  have hcard : l2.toFinset.card ≤ l1.toFinset.card := by
    rw [List.toFinset_card_of_nodup h1, List.toFinset_card_of_nodup h2]
    omega
  have heq := Finset.eq_of_subset_of_card_le hsub2 hcard
  rw [← List.mem_toFinset, ← heq, List.mem_toFinset] at hx
  exact hx

theorem nodup_append_singleton {l : List Nat} {x : Nat} (h : l.Nodup) (hx : x ∉ l) :
    (l ++ [x]).Nodup := by
  simp [List.nodup_append, h, hx]

theorem onTrackFormatAvailable_dup (s : Session) (e : FmtEvent)
    (h : e.tid ∈ s.mTracksAdded) : onTrackFormatAvailable s e = some s := by
  unfold onTrackFormatAvailable
  rw [if_pos h]

theorem onTrackFormatAvailable_mono (sp : Session) (ep : FmtEvent) (sq : Session)
    (h : onTrackFormatAvailable sp ep = some sq) :
    ∃ l, sq.mTracksAdded = sp.mTracksAdded ++ l := by
  simp only [onTrackFormatAvailable] at h
  repeat' split at h
  all_goals try exact Option.noConfusion h
  all_goals injection h with h
  all_goals subst h
  all_goals try exact ⟨[ep.tid], rfl⟩
  all_goals try exact ⟨[ep.tid], (sendCallback_frame _ _).2.2.1⟩
  all_goals refine ⟨[], ?_⟩
  all_goals try rw [(sendCallback_frame _ _).2.2.1]
  all_goals simp

theorem onTrackFormatAvailable_inv (s : Session) (e : FmtEvent) (w : SampleWriter)
    (hw : s.mSampleWriter = some w) (hr : s.mSampleReader.isSome = true)
    (hnd : s.mTracksAdded.Nodup)
    (hsub : ∀ x ∈ s.mTracksAdded, x ∈ s.mTrackTranscoders.map TrackTranscoder.tid)
    (hcnd : (s.mTrackTranscoders.map TrackTranscoder.tid).Nodup)
    (hsc : w.startCalls ≤ 1)
    (hfull : w.startCalls = 1 → s.mTracksAdded.length = s.mTrackTranscoders.length)
    (he : e.tid ∈ s.mTrackTranscoders.map TrackTranscoder.tid) :
    ∃ s1 w1, onTrackFormatAvailable s e = some s1 ∧ s1.mSampleWriter = some w1 ∧
      s1.mSampleReader.isSome = true ∧
      s1.mTrackTranscoders = s.mTrackTranscoders ∧
      s1.mTracksAdded.Nodup ∧
      (∀ x ∈ s1.mTracksAdded, x ∈ s.mTrackTranscoders.map TrackTranscoder.tid) ∧
      w1.startCalls ≤ 1 ∧
      (w1.startCalls = 1 → s1.mTracksAdded.length = s1.mTrackTranscoders.length) ∧
      w.startCalls ≤ w1.startCalls := by
  by_cases hdup : e.tid ∈ s.mTracksAdded
  · exact ⟨s, w, onTrackFormatAvailable_dup s e hdup, hw, hr, rfl, hnd, hsub, hsc, hfull,
           Nat.le_refl _⟩
  · have hsc0 : w.startCalls = 0 := by
      rcases Nat.eq_or_lt_of_le hsc with h1 | h1
      · exfalso
        have hlen := hfull h1
        have hmem := mem_of_nodup_subset_length_eq hnd hcnd hsub
          (by rw [hlen, List.length_map]) e.tid he
        exact hdup hmem
      · omega
    simp only [onTrackFormatAvailable, hw]
    rw [if_neg hdup]
    by_cases haddok : e.addTrackOk = true
    · rw [if_neg (by simp [haddok])]
      by_cases hq :
          (s.mTracksAdded ++ [e.tid]).length = s.mTrackTranscoders.length
      · rw [if_pos hq]
        obtain ⟨r, hreq⟩ := Option.isSome_iff_exists.mp hr
        simp only [hreq]
        by_cases hws : e.writerStartOk = true
        · rw [if_neg (by simp [hws])]
          refine ⟨_, { w with
                       trackIds := w.trackIds ++ [e.tid]
                       startCalls := w.startCalls + 1
                       started := e.writerStartOk },
                  rfl, rfl, rfl, rfl, nodup_append_singleton hnd hdup, ?_, ?_, ?_, ?_⟩
          · intro x hx
            rcases List.mem_append.mp hx with hx | hx
            · exact hsub x hx
            · rw [List.mem_singleton.mp hx]
              exact he
          · simp [hsc0]
          · intro _
            exact hq
          · simp
        · rw [if_pos (by simp [hws])]
          obtain ⟨hf1, hf2, hf3, hf4, _⟩ := sendCallback_frame
            { s with
              mSampleReader := some { r with enforceSequentialAccess := true }
              mSampleWriter :=
                some { w with
                       trackIds := w.trackIds ++ [e.tid]
                       startCalls := w.startCalls + 1
                       started := e.writerStartOk }
              mTracksAdded := s.mTracksAdded ++ [e.tid] } .errorUnknown
          refine ⟨_, { w with
                       trackIds := w.trackIds ++ [e.tid]
                       startCalls := w.startCalls + 1
                       started := e.writerStartOk },
                  rfl, by rw [hf1], by rw [hf2]; rfl, by rw [hf4], ?_, ?_, ?_, ?_, ?_⟩
          · rw [hf3]
            exact nodup_append_singleton hnd hdup
          · rw [hf3]
            intro x hx
            rcases List.mem_append.mp hx with hx | hx
            · exact hsub x hx
            · rw [List.mem_singleton.mp hx]
              exact he
          · simp [hsc0]
          · intro _
            rw [hf3, hf4]
            exact hq
          · simp
      · rw [if_neg hq]
        refine ⟨_, { w with trackIds := w.trackIds ++ [e.tid] },
                rfl, rfl, by simpa using hr, rfl, nodup_append_singleton hnd hdup,
                ?_, ?_, ?_, Nat.le_refl _⟩
        · intro x hx
          rcases List.mem_append.mp hx with hx | hx
          · exact hsub x hx
          · rw [List.mem_singleton.mp hx]
            exact he
        · exact hsc
        · intro h1
          exact absurd h1 (by simp [hsc0])
    · rw [if_pos (by simp [haddok])]
      obtain ⟨hf1, hf2, hf3, hf4, _⟩ := sendCallback_frame s .errorUnknown
      refine ⟨_, w, rfl, by rw [hf1, hw], by rw [hf2]; exact hr, hf4, ?_, ?_, hsc, ?_,
              Nat.le_refl _⟩
      · rw [hf3]
        exact hnd
      · rw [hf3]
        exact hsub
      · intro h1
        rw [hf3, hf4]
        exact hfull h1

theorem runFmtEvents_inv :
    ∀ (tr : List FmtEvent) (s : Session) (w : SampleWriter),
      s.mSampleWriter = some w → s.mSampleReader.isSome = true →
      s.mTracksAdded.Nodup →
      (∀ x ∈ s.mTracksAdded, x ∈ s.mTrackTranscoders.map TrackTranscoder.tid) →
      (s.mTrackTranscoders.map TrackTranscoder.tid).Nodup →
      w.startCalls ≤ 1 →
      (w.startCalls = 1 → s.mTracksAdded.length = s.mTrackTranscoders.length) →
      (∀ e ∈ tr, e.tid ∈ s.mTrackTranscoders.map TrackTranscoder.tid) →
      ∃ s1 w1, runFmtEvents s tr = some s1 ∧ s1.mSampleWriter = some w1 ∧
        s1.mTrackTranscoders = s.mTrackTranscoders ∧
        s1.mTracksAdded.Nodup ∧
        (∀ x ∈ s1.mTracksAdded, x ∈ s.mTrackTranscoders.map TrackTranscoder.tid) ∧
        w1.startCalls ≤ 1 ∧
        (w1.startCalls = 1 → s1.mTracksAdded.length = s1.mTrackTranscoders.length) ∧
        w.startCalls ≤ w1.startCalls := by
  intro tr
  induction tr with
  | nil =>
      intro s w hw hr hnd hsub hcnd hsc hfull _
      exact ⟨s, w, rfl, hw, rfl, hnd, hsub, hsc, hfull, Nat.le_refl _⟩
  | cons e es ih =>
      intro s w hw hr hnd hsub hcnd hsc hfull hev
      obtain ⟨sm, wm, hstep, hw1, hr1, htr1, hnd1, hsub1, hsc1, hfull1, hmono1⟩ :=
        onTrackFormatAvailable_inv s e w hw hr hnd hsub hcnd hsc hfull (hev e (by simp))
      obtain ⟨s1, w1, hrun, hw2, htr2, hnd2, hsub2, hsc2, hfull2, hmono2⟩ :=
        ih sm wm hw1 hr1 hnd1 (by rw [htr1]; exact hsub1) (by rw [htr1]; exact hcnd)
          hsc1 hfull1 (by rw [htr1]; exact fun x hx => hev x (by simp [hx]))
      refine ⟨s1, w1, ?_, hw2, htr2.trans htr1, hnd2, by rw [← htr1]; exact hsub2,
              hsc2, hfull2, Nat.le_trans hmono1 hmono2⟩
      simp [runFmtEvents, hstep, hrun]

/-- Claim C3: a duplicate format report is a no-op, the reported set only
grows, and the writer's `start()` is invoked at most once — and only once
every configured track transcoder has reported its output format. -/
theorem c3_writer_started_once (s : Session) (w : SampleWriter) (tr : List FmtEvent)
    (hw : s.mSampleWriter = some w) (hr : s.mSampleReader.isSome = true)
    (hadded : s.mTracksAdded = []) (hsc : w.startCalls = 0)
    (hcnd : (s.mTrackTranscoders.map TrackTranscoder.tid).Nodup)
    (hev : ∀ e ∈ tr, e.tid ∈ s.mTrackTranscoders.map TrackTranscoder.tid) :
    (∀ sp ep, ep.tid ∈ sp.mTracksAdded → onTrackFormatAvailable sp ep = some sp) ∧
    (∀ sp ep sq, onTrackFormatAvailable sp ep = some sq →
      ∃ l, sq.mTracksAdded = sp.mTracksAdded ++ l) ∧
    ∃ s1 w1, runFmtEvents s tr = some s1 ∧ s1.mSampleWriter = some w1 ∧
      w1.startCalls ≤ 1 ∧
      (w1.startCalls = 1 → ∀ t ∈ s1.mTrackTranscoders, t.tid ∈ s1.mTracksAdded) := by
  refine ⟨onTrackFormatAvailable_dup, onTrackFormatAvailable_mono, ?_⟩
  obtain ⟨s1, w1, hrun, hw1, htr, hnd1, hsub1, hsc1, hfull1, _⟩ :=
    runFmtEvents_inv tr s w hw hr (by rw [hadded]; exact List.nodup_nil)
      (by rw [hadded]; intro x hx; simp at hx) hcnd (by omega)
      (by intro h1; omega) hev
  refine ⟨s1, w1, hrun, hw1, hsc1, ?_⟩
  intro h1 t ht
  have hlen := hfull1 h1
  have hcnd1 : (s1.mTrackTranscoders.map TrackTranscoder.tid).Nodup := by
    rw [htr]
    exact hcnd
  have hsub1b : ∀ x ∈ s1.mTracksAdded, x ∈ s1.mTrackTranscoders.map TrackTranscoder.tid := by
    rw [htr]
    exact hsub1
  exact mem_of_nodup_subset_length_eq hnd1 hcnd1 hsub1b
    (by rw [List.length_map]; exact hlen)
    t.tid (List.mem_map_of_mem TrackTranscoder.tid ht)

/-- Witness for C3: two configured transcoders, a duplicate report from the
first, then the second completing the quorum; the writer is started exactly
once. -/
theorem c3_writer_started_once_witness :
    ∃ s1 w1,
      runFmtEvents
          { initSession with
            mTrackTranscoders :=
              [{ tid := 1, kind := .video, trackIndex := 0, outFormat := none },
               { tid := 2, kind := .passthrough, trackIndex := 1, outFormat := none }]
            mSampleWriter := some { trackIds := [], startCalls := 0, started := false, stopCalls := 0 }
            mSampleReader := some { selectedTracks := [], enforceSequentialAccess := false } }
          [{ tid := 1, addTrackOk := true, writerStartOk := true },
           { tid := 1, addTrackOk := true, writerStartOk := true },
           { tid := 2, addTrackOk := true, writerStartOk := true }] = some s1 ∧
      s1.mSampleWriter = some w1 ∧
      w1.startCalls ≤ 1 ∧
      (w1.startCalls = 1 → ∀ t ∈ s1.mTrackTranscoders, t.tid ∈ s1.mTracksAdded) := by
  obtain ⟨_, _, h⟩ :=
    c3_writer_started_once
      { initSession with
        mTrackTranscoders :=
          [{ tid := 1, kind := .video, trackIndex := 0, outFormat := none },
           { tid := 2, kind := .passthrough, trackIndex := 1, outFormat := none }]
        mSampleWriter := some { trackIds := [], startCalls := 0, started := false, stopCalls := 0 }
        mSampleReader := some { selectedTracks := [], enforceSequentialAccess := false } }
      { trackIds := [], startCalls := 0, started := false, stopCalls := 0 }
      [{ tid := 1, addTrackOk := true, writerStartOk := true },
       { tid := 1, addTrackOk := true, writerStartOk := true },
       { tid := 2, addTrackOk := true, writerStartOk := true }]
      rfl rfl rfl rfl (by decide) (by decide)
  exact h

end MediaTranscoding
